import Mathlib

/-!
Verification development for the Legal-Document-Analyzer web application.

The application code is TypeScript/React.  We give a shallow embedding of the
non-presentational logic into Lean:

* JavaScript strings are modelled as `List Char`; `String` literals are
  converted with `String.data` at the boundaries.
* `String.prototype.trim` and the regex replaces used by the code are modelled
  by executable list functions (`jsTrim`, `collapseWsRuns`, `collapseBlankLines`).
* `JSON.parse` (a JS builtin, external to the repository) is modelled by an
  executable recursive-descent parser `jsonParse` producing `Json` values;
  numbers are modelled by exact rationals (binary-float rounding is irrelevant
  to every property considered here).
* Asynchronous service calls are modelled by passing the settled outcome of the
  call (`Except`) to the pure state-transition function that the corresponding
  `async` handler denotes; a handler that both starts a call and reacts to its
  resolution is split at the `await` point into a `...Start` function (the
  synchronous part, returning the intermediate state and whether a call was
  issued) and a `...Finish` function (the continuation applied to the outcome).
* React `useState` component state is modelled by explicit state records; each
  event handler becomes a function from state to state.
-/

/-- Whitespace as matched by JavaScript `\s` / trimmed by `String.prototype.trim`
(restricted to the ASCII range; the Unicode space characters also matched by JS
never occur in any input considered here). -/
def isJsWs (c : Char) : Bool :=
  c = ' ' || c = '\t' || c = '\n' || c = '\r' || c = '\x0b' || c = '\x0c'

/-- Drop leading JS whitespace. -/
def trimLeftWs (l : List Char) : List Char := l.dropWhile isJsWs

/-- Drop trailing JS whitespace. -/
def trimRightWs (l : List Char) : List Char := (l.reverse.dropWhile isJsWs).reverse

/-- Model of JavaScript `String.prototype.trim`. -/
def jsTrim (l : List Char) : List Char := trimRightWs (trimLeftWs l)

/-- `jsTrim` lifted back to `String`, for handlers that keep strings whole. -/
def jsTrimStr (s : String) : String := String.mk (jsTrim s.data)

/-- The backtick character (U+0060). -/
def backtickChar : Char := Char.ofNat 96

/-- Model of `cleanGeminiResponse` (src/services/gemini.ts, lines 26-43):
trim, strip one leading ```json or ``` marker, strip one trailing ``` marker,
trim again. -/
def cleanGeminiResponse (response : List Char) : List Char :=
  let cleaned := jsTrim response
  let cleaned2 :=
    if ("```json").data.isPrefixOf cleaned then cleaned.drop 7
    else if ("```").data.isPrefixOf cleaned then cleaned.drop 3
    else cleaned
  let cleaned3 :=
    if ("```").data.isSuffixOf cleaned2 then cleaned2.take (cleaned2.length - 3)
    else cleaned2
  jsTrim cleaned3

/-- Model of the global regex replace `.replace(/\s+/g, ' ')` used on extracted
text (PDFUpload component, `extractTextFromPDF`): every maximal run of
whitespace characters is replaced by a single space.  The boolean argument
records whether the scanner is currently inside a whitespace run. -/
def collapseWsAux : Bool → List Char → List Char
  | _, [] => []
  | prevWs, c :: rest =>
    if isJsWs c then
      if prevWs then collapseWsAux true rest
      else ' ' :: collapseWsAux true rest
    else c :: collapseWsAux false rest

/-- `.replace(/\s+/g, ' ')` on a whole string. -/
def collapseWsRuns (l : List Char) : List Char := collapseWsAux false l

/-- Helper for the regex `/\n\s*\n/`: given the text following a `'\n'`,
return the suffix just after the last `'\n'` that is reachable through
whitespace (the end of the greedy match of `\s*\n`), or `none` when the
regex does not match at this position. -/
def afterLastNewlineInRun : List Char → Option (List Char)
  | [] => none
  | c :: rest =>
    if isJsWs c then
      match afterLastNewlineInRun rest with
      | some r => some r
      | none => if c = '\n' then some rest else none
    else none

/-- Model of the global regex replace `.replace(/\n\s*\n/g, '\n')` used on
extracted text: each leftmost match of `\n\s*\n` (greedy, with backtracking so
the match ends at the last newline reachable through whitespace) is replaced by
a single `'\n'`, and scanning resumes after the replacement.  Fuel-driven so
that the definition is structurally recursive; `collapseBlankLines` supplies
sufficient fuel. -/
def collapseBlankAux : Nat → List Char → List Char
  | 0, l => l
  | _ + 1, [] => []
  | fuel + 1, c :: rest =>
    if c = '\n' then
      match afterLastNewlineInRun rest with
      | some r => '\n' :: collapseBlankAux fuel r
      | none => '\n' :: collapseBlankAux fuel rest
    else c :: collapseBlankAux fuel rest

/-- `.replace(/\n\s*\n/g, '\n')` on a whole string. -/
def collapseBlankLines (l : List Char) : List Char :=
  collapseBlankAux l.length l

/-- The text clean-up chain of `extractTextFromPDF` (PDFUpload component):
`fullText.replace(/\s+/g, ' ').replace(/\n\s*\n/g, '\n').trim()`. -/
def cleanupExtractedText (l : List Char) : List Char :=
  jsTrim (collapseBlankLines (collapseWsRuns l))

/-- Error message thrown by `extractTextFromPDF` when too little text survives
clean-up. -/
def insufficientTextMessage : String :=
  "Could not extract sufficient readable text from the PDF. The document might be image-based, password-protected, or contain mostly non-text content."

/-- Model of `extractTextFromPDF` (PDFUpload component) from the point where
the per-page texts have been retrieved: join the page texts with a blank-line
separator, clean up the whitespace, and fail unless at least 50 characters
survive.  (PDF loading and per-page text retrieval are calls into the external
pdfjs library and are represented by the `pageTexts` argument.) -/
def extractTextFromPDF (pageTexts : List (List Char)) : Except String (List Char) :=
  let fullText := List.intercalate ('\n' :: '\n' :: []) pageTexts
  let cleanedText := cleanupExtractedText fullText
  if cleanedText.isEmpty || cleanedText.length < 50 then
    Except.error insufficientTextMessage
  else
    Except.ok cleanedText

/-- The progress value reported when the page numbered `pageNum` (1-based)
completes: `(pageNum / pdf.numPages) * 100`, computed in exact arithmetic. -/
def progressValue (numPages pageNum : Nat) : ℚ :=
  ((pageNum : ℚ) / (numPages : ℚ)) * 100

/-- The sequence of progress values reported to the caller during one
extraction job, as a function of the order in which the concurrently processed
pages complete: each page's `.then` continuation reports
`(pageNum / pdf.numPages) * 100` for its own page number at the moment that
page completes. -/
def reportedProgressSeq (numPages : Nat) (completionOrder : List Nat) : List ℚ :=
  completionOrder.map (progressValue numPages)

/-- JSON values, the possible results of `JSON.parse`.  Numbers are modelled by
exact rationals. -/
inductive Json where
  | null : Json
  | bool (b : Bool) : Json
  | num (q : ℚ) : Json
  | str (s : String) : Json
  | arr (elems : List Json) : Json
  | obj (fields : List (String × Json)) : Json
deriving Repr

/-- Whitespace accepted between JSON tokens by `JSON.parse` (space, tab,
newline, carriage return). -/
def isJsonWs (c : Char) : Bool :=
  c = ' ' || c = '\t' || c = '\n' || c = '\r'

/-- Skip inter-token whitespace. -/
def skipJsonWs (l : List Char) : List Char := l.dropWhile isJsonWs

/-- Value of a single-character escape in a JSON string literal, if legal. -/
def unescapeChar (c : Char) : Option Char :=
  if c = '"' then some '"'
  else if c = '\\' then some '\\'
  else if c = '/' then some '/'
  else if c = 'b' then some '\x08'
  else if c = 'f' then some '\x0c'
  else if c = 'n' then some '\n'
  else if c = 'r' then some '\r'
  else if c = 't' then some '\t'
  else none

/-- Value of a hexadecimal digit, if the character is one. -/
def hexDigitVal (c : Char) : Option Nat :=
  if '0' ≤ c ∧ c ≤ '9' then some (c.toNat - '0'.toNat)
  else if 'a' ≤ c ∧ c ≤ 'f' then some (c.toNat - 'a'.toNat + 10)
  else if 'A' ≤ c ∧ c ≤ 'F' then some (c.toNat - 'A'.toNat + 10)
  else none

/-- Parse the body of a JSON string literal (the opening quote already
consumed), returning the decoded characters and the text after the closing
quote.  Raw control characters and invalid escapes are rejected, as by
`JSON.parse`.  Fuel-driven; one unit of fuel per input character suffices. -/
def parseStringBody : Nat → List Char → Option (List Char × List Char)
  | 0, _ => none
  | _ + 1, [] => none
  | fuel + 1, c :: rest =>
    if c = '"' then some ([], rest)
    else if c = '\\' then
      match rest with
      | [] => none
      | e :: rest2 =>
        if e = 'u' then
          match rest2 with
          | h1 :: h2 :: h3 :: h4 :: rest3 =>
            match hexDigitVal h1, hexDigitVal h2, hexDigitVal h3, hexDigitVal h4 with
            | some v1, some v2, some v3, some v4 =>
              (parseStringBody fuel rest3).map fun p =>
                (Char.ofNat (((v1 * 16 + v2) * 16 + v3) * 16 + v4) :: p.1, p.2)
            | _, _, _, _ => none
          | _ => none
        else
          match unescapeChar e with
          | some ec => (parseStringBody fuel rest2).map fun p => (ec :: p.1, p.2)
          | none => none
    else if c.toNat < 32 then none
    else (parseStringBody fuel rest).map fun p => (c :: p.1, p.2)

/-- Numeric value of a run of decimal digits. -/
def digitsToNat (ds : List Char) : Nat :=
  ds.foldl (fun n c => 10 * n + (c.toNat - '0'.toNat)) 0

/-- Parse a JSON number (grammar `-?(0|[1-9][0-9]*)(\.[0-9]+)?([eE][+-]?[0-9]+)?`,
leading zeros rejected), returning its exact rational value and the remaining
text. -/
def parseNumber (cs : List Char) : Option (ℚ × List Char) :=
  let (neg, cs1) :=
    match cs with
    | '-' :: r => (true, r)
    | _ => (false, cs)
  let intRun := cs1.takeWhile Char.isDigit
  let rest1 := cs1.dropWhile Char.isDigit
  if intRun.isEmpty then none
  else if 2 ≤ intRun.length ∧ intRun.headD ' ' = '0' then none
  else
    let (fracRun, rest2) :=
      match rest1 with
      | '.' :: r => (r.takeWhile Char.isDigit, r.dropWhile Char.isDigit)
      | _ => ([], rest1)
    if rest1.headD ' ' = '.' ∧ fracRun.isEmpty then none
    else
      let expPart : Option (Int × List Char) :=
        match rest2 with
        | e :: r =>
          if e = 'e' ∨ e = 'E' then
            let (esign, r2) :=
              match r with
              | '+' :: rr => ((1 : Int), rr)
              | '-' :: rr => ((-1 : Int), rr)
              | _ => ((1 : Int), r)
            let expRun := r2.takeWhile Char.isDigit
            if expRun.isEmpty then none
            else some (esign * (digitsToNat expRun : Int), r2.dropWhile Char.isDigit)
          else some (0, rest2)
        | [] => some (0, rest2)
      match expPart with
      | none => none
      | some (expVal, rest3) =>
        let mag : ℚ :=
          ((digitsToNat intRun : ℚ) + (digitsToNat fracRun : ℚ) / (10 : ℚ) ^ fracRun.length)
            * (10 : ℚ) ^ expVal
        some (if neg then -mag else mag, rest3)

/-- The three mutually recursive parsing modes of the JSON grammar, combined
into one fuel-indexed function so that recursion is structural on the fuel. -/
inductive JsonPMode where
  | value
  | arrayItems
  | objectItems

/-- Recursive-descent core of the `JSON.parse` model.  In mode `value` it
parses one JSON value (leading whitespace allowed); in mode `arrayItems` it
parses `v (, v)* ]` returning `Json.arr`; in mode `objectItems` it parses
`"k" : v (, "k" : v)* \x7d` returning `Json.obj`. -/
def parseCore : Nat → JsonPMode → List Char → Option (Json × List Char)
  | 0, _, _ => none
  | fuel + 1, JsonPMode.value, cs =>
    match skipJsonWs cs with
    | 'n' :: 'u' :: 'l' :: 'l' :: rest => some (Json.null, rest)
    | 't' :: 'r' :: 'u' :: 'e' :: rest => some (Json.bool true, rest)
    | 'f' :: 'a' :: 'l' :: 's' :: 'e' :: rest => some (Json.bool false, rest)
    | '"' :: rest =>
      (parseStringBody (rest.length + 1) rest).map fun p => (Json.str (String.mk p.1), p.2)
    | '[' :: rest =>
      (match skipJsonWs rest with
       | ']' :: rest2 => some (Json.arr [], rest2)
       | cs2 => parseCore fuel JsonPMode.arrayItems cs2)
    | '\x7b' :: rest =>
      (match skipJsonWs rest with
       | '\x7d' :: rest2 => some (Json.obj [], rest2)
       | cs2 => parseCore fuel JsonPMode.objectItems cs2)
    | cs1 => (parseNumber cs1).map fun p => (Json.num p.1, p.2)
  | fuel + 1, JsonPMode.arrayItems, cs =>
    match parseCore fuel JsonPMode.value cs with
    | none => none
    | some (j, r) =>
      match skipJsonWs r with
      | ',' :: r2 =>
        (match parseCore fuel JsonPMode.arrayItems r2 with
         | some (Json.arr js, r3) => some (Json.arr (j :: js), r3)
         | _ => none)
      | ']' :: r2 => some (Json.arr (j :: []), r2)
      | _ => none
  | fuel + 1, JsonPMode.objectItems, cs =>
    match skipJsonWs cs with
    | '"' :: r =>
      (match parseStringBody (r.length + 1) r with
       | none => none
       | some (key, r2) =>
         match skipJsonWs r2 with
         | ':' :: r3 =>
           (match parseCore fuel JsonPMode.value r3 with
            | none => none
            | some (v, r4) =>
              match skipJsonWs r4 with
              | ',' :: r5 =>
                (match parseCore fuel JsonPMode.objectItems r5 with
                 | some (Json.obj fs, r6) => some (Json.obj ((String.mk key, v) :: fs), r6)
                 | _ => none)
              | '\x7d' :: r5 => some (Json.obj ((String.mk key, v) :: []), r5)
              | _ => none)
         | _ => none)
    | _ => none

/-- Model of the JS builtin `JSON.parse`: `some` the parsed value when the
whole text (up to trailing inter-token whitespace) is one JSON value, `none`
when `JSON.parse` would throw a `SyntaxError`. -/
def jsonParse (cs : List Char) : Option Json :=
  match parseCore (2 * cs.length + 2) JsonPMode.value cs with
  | some (j, rest) => if skipJsonWs rest = [] then some j else none
  | none => none

/-- The fallback `AnalysisResult` built by `GeminiService.analyzeDocument`
(src/services/gemini.ts, lines 106-115) when the service reply cannot be
parsed as JSON, written as the JSON value the object literal denotes. -/
def fallbackAnalysis : Json :=
  Json.obj [
    ("summary", Json.str "Document analysis completed. The AI has processed the available content and extracted key information where possible."),
    ("keyPoints", Json.arr [
      Json.str "Document uploaded and processed",
      Json.str "Content analyzed for key information",
      Json.str "Analysis completed with available data"]),
    ("legalIssues", Json.arr [
      Json.str "Text extraction quality may affect analysis accuracy"]),
    ("recommendations", Json.arr [
      Json.str "Review the original document for complete accuracy",
      Json.str "Consider re-uploading if text appears corrupted",
      Json.str "Consult with a legal professional for important matters"]),
    ("documentType", Json.str "Document (type analysis in progress)"),
    ("parties", Json.arr [Json.str "Analysis in progress"]),
    ("dates", Json.arr [Json.str "Analysis in progress"]),
    ("jurisdiction", Json.str "Not specified")]

/-- Error thrown by the Gemini service methods when no API key is configured. -/
def notConfiguredMessage : String :=
  "Gemini API is not configured. Please provide a valid API key."

/-- Error thrown by `GeminiService.analyzeDocument` when the external call
itself fails. -/
def analyzeFailureMessage : String :=
  "Failed to analyze document. Please check your API key and try again."

namespace GeminiService

/-- Model of `GeminiService.analyzeDocument` (src/services/gemini.ts, lines
46-121).  `configured` models whether `model` is non-null; `callResult` is the
settled outcome of the external `generateContent`/`response.text()` call
(`Except.error` for a transport or auth failure).  When the call succeeds, the
reply is cleaned and fed to `JSON.parse`; the parsed value is returned as the
analysis with no schema validation, and a parse failure is caught and replaced
by the fixed `fallbackAnalysis`.  When the call fails, the outer catch rethrows
`analyzeFailureMessage`. -/
def analyzeDocument (configured : Bool) (callResult : Except String String) :
    Except String Json :=
  if ¬configured then Except.error notConfiguredMessage
  else
    match callResult with
    | Except.error _ => Except.error analyzeFailureMessage
    | Except.ok analysisText =>
      match jsonParse (cleanGeminiResponse analysisText.data) with
      | some analysis => Except.ok analysis
      | none => Except.ok fallbackAnalysis

end GeminiService

/-- The component state of `DocumentAnalysis` (its `useState` hooks together
with the `isAnalyzing` flag it controls through `setIsAnalyzing`). -/
structure AnalysisState where
  analysis : Option Json
  error : Option String
  autoAnalyzeStarted : Bool
  isAnalyzing : Bool
deriving Repr

/-- Error set by `DocumentAnalysis.analyzeDocument` when no extracted text is
available. -/
def noTextMessage : String := "No text extracted from the document."

/-- Synchronous part of `DocumentAnalysis.analyzeDocument` (lines 61-69), up to
the `await` on the service call: with no extracted text, set an error and stop
(no call); otherwise set `isAnalyzing`, clear the error, and issue the call.
Returns the intermediate state and whether a call was issued. -/
def analyzeDocumentStart (extractedText : String) (s : AnalysisState) :
    AnalysisState × Bool :=
  if extractedText = "" then ({ s with error := some noTextMessage }, false)
  else ({ s with isAnalyzing := true, error := none }, true)

/-- Continuation of `DocumentAnalysis.analyzeDocument` (lines 70-79) applied to
the settled outcome of `GeminiService.analyzeDocument`: store the result on
success, store the error message on failure, and clear `isAnalyzing` in the
`finally` block. -/
def analyzeDocumentFinish (outcome : Except String Json) (s : AnalysisState) :
    AnalysisState :=
  match outcome with
  | Except.ok result => { s with analysis := some result, isAnalyzing := false }
  | Except.error e => { s with error := some e, isAnalyzing := false }

/-- The Re-analyze Document button handler (DocumentAnalysis, lines 407-420):
`setAnalysis(null); setAutoAnalyzeStarted(false); analyzeDocument()`. -/
def reanalyzeClick (extractedText : String) (s : AnalysisState) :
    AnalysisState × Bool :=
  analyzeDocumentStart extractedText
    { s with analysis := none, autoAnalyzeStarted := false }

/-- The `App` component state (its four `useState` hooks). -/
structure AppState where
  uploadedFile : Option String
  extractedText : String
  analysis : String
  isAnalyzing : Bool
deriving Repr

/-- Model of `App.handleFileUpload`: store the new file and reset the analysis
string; nothing else is touched. -/
def handleFileUpload (file : String) (s : AppState) : AppState :=
  { s with uploadedFile := some file, analysis := "" }

/-- Model of `App.handleTextExtracted`. -/
def handleTextExtracted (text : String) (s : AppState) : AppState :=
  { s with extractedText := text }

/-- Model of `App.handleAnalysisComplete`, invoked when a (possibly stale)
analysis call resolves successfully. -/
def handleAnalysisComplete (analysisResult : String) (s : AppState) : AppState :=
  { s with analysis := analysisResult, isAnalyzing := false }

/-- The role of a chat message. -/
inductive Role where
  | user
  | assistant
deriving Repr, DecidableEq

/-- A conversation turn (`Message` in ChatInterface; the wall-clock `id` and
`timestamp` fields carry no logic and are omitted). -/
structure ChatMsg where
  role : Role
  content : String
deriving Repr, DecidableEq

/-- The `ChatInterface` component state. -/
structure ChatState where
  messages : List ChatMsg
  input : String
  isLoading : Bool
  error : Option String
deriving Repr, DecidableEq

/-- Assistant turn appended by `handleSubmit` when the question call fails. -/
def apologyMessage : String :=
  "I apologize, but I encountered an error processing your question. Please try again or rephrase your question."

/-- Error set by `handleSubmit` when the service is not configured. -/
def chatNotConfiguredMessage : String :=
  "Gemini AI is not configured. Please check your API key."

/-- Error set by `handleSubmit` when no document text is available. -/
def chatNoTextMessage : String :=
  "No document text available. Please upload a document first."

/-- Synchronous part of `ChatInterface.handleSubmit` (lines 67-92), up to the
`await` on `GeminiService.askQuestion`: return unchanged on an empty (trimmed)
question or while loading; set an error and stop when unconfigured or without
document text; otherwise append the user turn, clear the input, set loading,
clear the error, and issue the call.  Returns the intermediate state and
whether a call was issued. -/
def handleSubmitStart (configured : Bool) (extractedText : String)
    (s : ChatState) : ChatState × Bool :=
  if jsTrimStr s.input = "" ∨ s.isLoading then (s, false)
  else if ¬configured then ({ s with error := some chatNotConfiguredMessage }, false)
  else if extractedText = "" then ({ s with error := some chatNoTextMessage }, false)
  else
    (⟨s.messages ++ [⟨Role.user, jsTrimStr s.input⟩], "", true, none⟩, true)

/-- Continuation of `ChatInterface.handleSubmit` (lines 93-121) applied to the
settled outcome of `GeminiService.askQuestion`: append the assistant reply on
success; on failure set the error and append the synthetic apology turn; clear
`isLoading` in the `finally` block. -/
def handleSubmitFinish (outcome : Except String String) (s : ChatState) :
    ChatState :=
  match outcome with
  | Except.ok response =>
    { s with messages := s.messages ++ [⟨Role.assistant, response⟩],
             isLoading := false }
  | Except.error e =>
    { s with messages := s.messages ++ [⟨Role.assistant, apologyMessage⟩],
             error := some e, isLoading := false }

/-- A session state as visible across components: the `App` state together
with the `ChatInterface` state.  Uploading a file runs only
`App.handleFileUpload`; no handler of `ChatInterface` is invoked, so the chat
state is untouched. -/
def uploadTransition (file : String) (s : AppState × ChatState) :
    AppState × ChatState :=
  (handleFileUpload file s.1, s.2)

/-- C1: when the external call succeeds but the cleaned reply fails to parse
as JSON, `analyzeDocument` does not raise: it returns the fixed fallback
`AnalysisResult` for any non-JSON or malformed-JSON reply. -/
theorem analyzeDocument_parse_failure_returns_fallback (reply : String)
    (h : jsonParse (cleanGeminiResponse reply.data) = none) :
    GeminiService.analyzeDocument true (Except.ok reply) = Except.ok fallbackAnalysis := by
  simp [GeminiService.analyzeDocument, h]

/-- Witness for C1: a malformed reply wrapped in code fences yields the
fallback record. -/
theorem analyzeDocument_parse_failure_returns_fallback_witness :
    jsonParse (cleanGeminiResponse ("```json\nnope\n```" : String).data) = none ∧
    GeminiService.analyzeDocument true (Except.ok "```json\nnope\n```")
      = Except.ok fallbackAnalysis :=
  ⟨rfl, analyzeDocument_parse_failure_returns_fallback "```json\nnope\n```" rfl⟩

/-- C2: when the external call itself fails (transport/auth failure, or the
service is not configured at all), `analyzeDocument` raises an explicit error
and does not return the parse-failure fallback record; the two failure modes
are distinguishable at the caller. -/
theorem analyzeDocument_transport_failure_raises (e : String)
    (callResult : Except String String) :
    GeminiService.analyzeDocument true (Except.error e)
        = Except.error analyzeFailureMessage ∧
    GeminiService.analyzeDocument true (Except.error e)
        ≠ Except.ok fallbackAnalysis ∧
    GeminiService.analyzeDocument false callResult
        = Except.error notConfiguredMessage := by
  refine ⟨rfl, ?_, rfl⟩
  simp [GeminiService.analyzeDocument]

/-- C10: `analyzeDocument` performs no schema validation on a successfully
parsed reply: whatever JSON value the cleaned reply parses to (for example
an empty object, an empty array, or bare null) is returned verbatim as the
analysis; the fallback record is produced only on the parse-failure branch. -/
theorem analyzeDocument_no_schema_validation (reply : String) (j : Json)
    (h : jsonParse (cleanGeminiResponse reply.data) = some j) :
    GeminiService.analyzeDocument true (Except.ok reply) = Except.ok j ∧
    jsonParse ("\x7b\x7d").data = some (Json.obj []) ∧
    jsonParse ("[]").data = some (Json.arr []) ∧
    jsonParse ("null").data = some Json.null :=
  ⟨by simp [GeminiService.analyzeDocument, h], rfl, rfl, rfl⟩

/-- Witness for C10: the reply consisting of an empty JSON object is returned
verbatim (with none of the eight expected fields present). -/
theorem analyzeDocument_no_schema_validation_witness :
    jsonParse (cleanGeminiResponse ("\x7b\x7d" : String).data) = some (Json.obj []) ∧
    GeminiService.analyzeDocument true (Except.ok "\x7b\x7d") = Except.ok (Json.obj []) :=
  ⟨rfl, (analyzeDocument_no_schema_validation "\x7b\x7d" (Json.obj []) rfl).1⟩

/-- C6 (code evaluated at the failing input): on a 2-page document whose page 2
completes before page 1, the reported progress sequence is 100 then 50 — not
monotonically non-decreasing — because each page reports its own page number's
fraction at the moment it completes. -/
theorem progress_reports_decrease_on_out_of_order_completion :
    reportedProgressSeq 2 [2, 1] = [100, 50] ∧
    ¬ List.Chain' (fun a b => a ≤ b) (reportedProgressSeq 2 [2, 1]) ∧
    List.Perm [2, 1] [1, 2] := by
  have hseq : reportedProgressSeq 2 [2, 1] = [100, 50] := by
    simp [reportedProgressSeq, progressValue]
    norm_num
  refine ⟨hseq, ?_, by decide⟩
  rw [hseq]
  intro hchain
  have := List.chain'_cons.mp hchain
  norm_num at this

/-- C7 counterexample: from a Ready state holding a prior analysis, clicking
Re-analyze leaves the stored analysis `none` while the new call is pending —
the prior result does not remain stored. -/
theorem reanalyze_pending_counterexample :
    (reanalyzeClick "some document text"
        ⟨some (Json.str "prior analysis"), none, true, false⟩).1.analysis = none ∧
    (reanalyzeClick "some document text"
        ⟨some (Json.str "prior analysis"), none, true, false⟩).2 = true ∧
    some (Json.str "prior analysis") ≠ (none : Option Json) := by
  refine ⟨?_, ?_, by simp⟩ <;>
    simp [reanalyzeClick, analyzeDocumentStart]

/-- C7 as amended: requesting re-analysis discards the stored prior analysis
immediately (before the call settles); while the call is pending the stored
analysis is `none` with `isAnalyzing` set; the new result is stored when the
call resolves successfully, and on failure the analysis stays `none` with the
error recorded. -/
theorem reanalyze_clears_prior_immediately (s : AnalysisState) (text : String)
    (r : Json) (e : String) (h : text ≠ "") :
    (reanalyzeClick text s).2 = true ∧
    (reanalyzeClick text s).1.analysis = none ∧
    (reanalyzeClick text s).1.isAnalyzing = true ∧
    (reanalyzeClick text s).1.error = none ∧
    (analyzeDocumentFinish (Except.ok r) (reanalyzeClick text s).1).analysis = some r ∧
    (analyzeDocumentFinish (Except.ok r) (reanalyzeClick text s).1).isAnalyzing = false ∧
    (analyzeDocumentFinish (Except.error e) (reanalyzeClick text s).1).analysis = none ∧
    (analyzeDocumentFinish (Except.error e) (reanalyzeClick text s).1).error = some e := by
  simp [reanalyzeClick, analyzeDocumentStart, analyzeDocumentFinish, h]

/-- Witness for the amended C7. -/
theorem reanalyze_clears_prior_immediately_witness :
    ("doc" : String) ≠ "" ∧
    (reanalyzeClick "doc" ⟨some (Json.str "old"), none, true, false⟩).2 = true ∧
    (reanalyzeClick "doc" ⟨some (Json.str "old"), none, true, false⟩).1.analysis = none ∧
    (reanalyzeClick "doc" ⟨some (Json.str "old"), none, true, false⟩).1.isAnalyzing = true ∧
    (reanalyzeClick "doc" ⟨some (Json.str "old"), none, true, false⟩).1.error = none ∧
    (analyzeDocumentFinish (Except.ok Json.null)
        (reanalyzeClick "doc" ⟨some (Json.str "old"), none, true, false⟩).1).analysis
      = some Json.null ∧
    (analyzeDocumentFinish (Except.ok Json.null)
        (reanalyzeClick "doc" ⟨some (Json.str "old"), none, true, false⟩).1).isAnalyzing
      = false ∧
    (analyzeDocumentFinish (Except.error "network error")
        (reanalyzeClick "doc" ⟨some (Json.str "old"), none, true, false⟩).1).analysis
      = none ∧
    (analyzeDocumentFinish (Except.error "network error")
        (reanalyzeClick "doc" ⟨some (Json.str "old"), none, true, false⟩).1).error
      = some "network error" :=
  ⟨by decide,
    reanalyze_clears_prior_immediately ⟨some (Json.str "old"), none, true, false⟩
      "doc" Json.null "network error" (by decide)⟩

/-- C8 counterexample: uploading a second document leaves the first document's
extracted text and conversation in place, and a stale analysis completion from
the first document repopulates the analysis state that the upload had cleared. -/
theorem upload_does_not_clear_counterexample :
    (uploadTransition "b.pdf"
        (⟨some "a.pdf", "old document text", "old analysis", false⟩,
         ⟨[⟨Role.assistant, "welcome"⟩], "", false, none⟩)).1.extractedText
      = "old document text" ∧
    ("old document text" : String) ≠ "" ∧
    (uploadTransition "b.pdf"
        (⟨some "a.pdf", "old document text", "old analysis", false⟩,
         ⟨[⟨Role.assistant, "welcome"⟩], "", false, none⟩)).2.messages
      = [⟨Role.assistant, "welcome"⟩] ∧
    ([⟨Role.assistant, "welcome"⟩] : List ChatMsg) ≠ [] ∧
    (handleAnalysisComplete "stale analysis result"
        (handleFileUpload "b.pdf"
          ⟨some "a.pdf", "old document text", "old analysis", false⟩)).analysis
      = "stale analysis result" ∧
    ("stale analysis result" : String) ≠ "" :=
  ⟨rfl, by decide, rfl, by decide, rfl, by decide⟩

/-- C8 as amended: uploading a new document clears only the stored analysis
string; the prior extracted text and the entire chat state survive the upload,
and a still-pending analysis call from the prior document repopulates the
analysis state when it resolves. -/
theorem handleFileUpload_clears_only_analysis (file result : String)
    (s : AppState) (c : ChatState) :
    (handleFileUpload file s).analysis = "" ∧
    (handleFileUpload file s).uploadedFile = some file ∧
    (handleFileUpload file s).extractedText = s.extractedText ∧
    (handleFileUpload file s).isAnalyzing = s.isAnalyzing ∧
    (uploadTransition file (s, c)).2 = c ∧
    (handleAnalysisComplete result (handleFileUpload file s)).analysis = result := by
  simp [handleFileUpload, uploadTransition, handleAnalysisComplete]

/-- C9: submitting an empty (trimmed-empty) question is a no-op — no call, no
turn; submitting a non-empty question in an active session appends exactly one
user turn immediately, and exactly one further assistant turn after the call
resolves — the answer on success, the synthetic apology turn on failure. -/
theorem handleSubmit_turn_discipline (configured : Bool) (extractedText : String)
    (s : ChatState) :
    (jsTrimStr s.input = "" →
      handleSubmitStart configured extractedText s = (s, false)) ∧
    (jsTrimStr s.input ≠ "" → s.isLoading = false → configured = true →
      extractedText ≠ "" →
      (handleSubmitStart configured extractedText s).2 = true ∧
      (handleSubmitStart configured extractedText s).1.messages
        = s.messages ++ [⟨Role.user, jsTrimStr s.input⟩] ∧
      (∀ response,
        (handleSubmitFinish (Except.ok response)
            (handleSubmitStart configured extractedText s).1).messages
          = s.messages ++ [⟨Role.user, jsTrimStr s.input⟩, ⟨Role.assistant, response⟩]) ∧
      (∀ e,
        (handleSubmitFinish (Except.error e)
            (handleSubmitStart configured extractedText s).1).messages
          = s.messages ++ [⟨Role.user, jsTrimStr s.input⟩, ⟨Role.assistant, apologyMessage⟩])) := by
  constructor
  · intro h
    simp [handleSubmitStart, h]
  · intro h1 h2 h3 h4
    subst h3
    simp [handleSubmitStart, handleSubmitFinish, h1, h2, h4]

/-- Witness for C9: an all-whitespace question is a no-op; the question
" hi " appends one user turn, then exactly one assistant turn (the answer on
success, the apology on failure). -/
theorem handleSubmit_turn_discipline_witness :
    jsTrimStr ("  " : String) = "" ∧
    handleSubmitStart true "doc" ⟨[], "  ", false, none⟩
      = (⟨[], "  ", false, none⟩, false) ∧
    jsTrimStr (" hi " : String) ≠ "" ∧
    (handleSubmitStart true "doc" ⟨[], " hi ", false, none⟩).2 = true ∧
    (handleSubmitStart true "doc" ⟨[], " hi ", false, none⟩).1.messages
      = [] ++ [⟨Role.user, jsTrimStr " hi "⟩] ∧
    (handleSubmitFinish (Except.ok "the answer")
        (handleSubmitStart true "doc" ⟨[], " hi ", false, none⟩).1).messages
      = [] ++ [⟨Role.user, jsTrimStr " hi "⟩, ⟨Role.assistant, "the answer"⟩] ∧
    (handleSubmitFinish (Except.error "network error")
        (handleSubmitStart true "doc" ⟨[], " hi ", false, none⟩).1).messages
      = [] ++ [⟨Role.user, jsTrimStr " hi "⟩, ⟨Role.assistant, apologyMessage⟩] := by
  have h1 := (handleSubmit_turn_discipline true "doc" ⟨[], "  ", false, none⟩).1 (by decide)
  have h2 := (handleSubmit_turn_discipline true "doc" ⟨[], " hi ", false, none⟩).2
    (by decide) rfl rfl (by decide)
  exact ⟨by decide, h1, by decide, h2.1, h2.2.1, h2.2.2.1 "the answer", h2.2.2.2 "network error"⟩

theorem isPrefixOf_append_self (x y : List Char) : x.isPrefixOf (x ++ y) = true := by
  simp [ List.isPrefixOf_iff_prefix, List.prefix_append]

theorem isSuffixOf_append_self (x y : List Char) : y.isSuffixOf (x ++ y) = true := by
  simp [ List.isSuffixOf_iff_suffix, List.suffix_append]

theorem trimLeftWs_cons_ws {c : Char} (h : isJsWs c = true) (l : List Char) :
    trimLeftWs (c :: l) = trimLeftWs l := by
  simp [trimLeftWs, List.dropWhile_cons, h]

theorem trimLeftWs_cons_not_ws {c : Char} (h : isJsWs c = false) (l : List Char) :
    trimLeftWs (c :: l) = c :: l := by
  simp [trimLeftWs, List.dropWhile_cons, h]

theorem trimRightWs_append_ws {b : Char} (h : isJsWs b = true) (x : List Char) :
    trimRightWs (x ++ [b]) = trimRightWs x := by
  simp [trimRightWs, List.reverse_append, List.dropWhile_cons, h]

theorem trimRightWs_append_not_ws {b : Char} (h : isJsWs b = false) (x : List Char) :
    trimRightWs (x ++ [b]) = x ++ [b] := by
  simp [trimRightWs, List.reverse_append, List.dropWhile_cons, h]

theorem jsTrim_cons_ws {c : Char} (h : isJsWs c = true) (l : List Char) :
    jsTrim (c :: l) = jsTrim l := by
  simp [jsTrim, trimLeftWs_cons_ws h]

theorem trimLeftWs_append (x y : List Char) :
    trimLeftWs (x ++ y)
      = if (trimLeftWs x).isEmpty then trimLeftWs y else trimLeftWs x ++ y := by
  simp [trimLeftWs, List.dropWhile_append]

theorem jsTrim_append_ws {b : Char} (h : isJsWs b = true) (s : List Char) :
    jsTrim (s ++ [b]) = jsTrim s := by
  unfold jsTrim
  rw [trimLeftWs_append]
  by_cases he : (trimLeftWs s).isEmpty
  · rw [if_pos he]
    rw [List.isEmpty_iff] at he
    rw [he, trimLeftWs_cons_ws h]
    rfl
  · rw [if_neg he, trimRightWs_append_ws h]

theorem jsTrim_guard {a b : Char} (ha : isJsWs a = false) (hb : isJsWs b = false)
    (m : List Char) : jsTrim (a :: (m ++ [b])) = a :: (m ++ [b]) := by
  unfold jsTrim
  rw [trimLeftWs_cons_not_ws ha]
  have h : a :: (m ++ [b]) = (a :: m) ++ [b] := by simp
  rw [h, trimRightWs_append_not_ws hb]

theorem collapseWsAux_ws_eq_space :
    ∀ (l : List Char) (b : Bool) (c : Char),
      c ∈ collapseWsAux b l → isJsWs c = true → c = ' ' := by
  intro l
  induction l with
  | nil => intro b c hc _; simp [collapseWsAux] at hc
  | cons d rest ih =>
    intro b c hc hws
    by_cases hd : isJsWs d = true
    · cases b with
      | true =>
        rw [collapseWsAux, if_pos hd, if_pos rfl] at hc
        exact ih true c hc hws
      | false =>
        rw [collapseWsAux, if_pos hd] at hc
        simp at hc
        rcases hc with h | h
        · exact h
        · exact ih true c h hws
    · rw [collapseWsAux, if_neg hd] at hc
      rcases List.mem_cons.mp hc with h | h
      · subst h; exact absurd hws hd
      · exact ih false c h hws

theorem newline_not_mem_collapseWsRuns (l : List Char) : '\n' ∉ collapseWsRuns l := by
  intro h
  have := collapseWsAux_ws_eq_space l false '\n' h (by decide)
  simp at this

theorem collapseBlankAux_id_of_no_newline :
    ∀ (fuel : Nat) (l : List Char), '\n' ∉ l → collapseBlankAux fuel l = l := by
  intro fuel
  induction fuel with
  | zero => intro l _; rfl
  | succ n ih =>
    intro l h
    cases l with
    | nil => rfl
    | cons c rest =>
      have hc : ¬(c = '\n') := by
        intro e
        exact h (e ▸ List.mem_cons_self c rest)
      rw [collapseBlankAux, if_neg hc]
      have hrest : '\n' ∉ rest := fun hm => h (List.mem_cons_of_mem _ hm)
      rw [ih rest hrest]

theorem mem_of_mem_jsTrim {c : Char} {l : List Char} (h : c ∈ jsTrim l) : c ∈ l := by
  unfold jsTrim trimRightWs trimLeftWs at h
  rw [List.mem_reverse] at h
  have h2 := (List.dropWhile_suffix _).subset h
  rw [List.mem_reverse] at h2
  exact (List.dropWhile_suffix _).subset h2

/-- C3 counterexample: the clean-up chain normalizes `"A B    C\n\n\nD"` to
`"A B C D"`, not to `"A B C\nD"`: the first replace, `/\s+/g → ' '`, already
turns every newline into a space, so no blank line survives to the second
replace. -/
theorem cleanup_example_counterexample :
    cleanupExtractedText ("A B    C\n\n\nD").data = ("A B C D").data ∧
    cleanupExtractedText ("A B    C\n\n\nD").data ≠ ("A B C\nD").data :=
  ⟨by decide, by decide⟩

/-- C3 as amended: the normalization collapses every run of whitespace —
newlines included — to a single space (no newline survives in the output),
and trims the ends; on the input `"A B    C\n\n\nD"` the output is exactly
`"A B C D"`. -/
theorem cleanup_whitespace_all_single_spaces :
    (∀ (s : List Char), ∀ c ∈ cleanupExtractedText s, isJsWs c = true → c = ' ') ∧
    cleanupExtractedText ("A B    C\n\n\nD").data = ("A B C D").data := by
  constructor
  · intro s c hc hws
    unfold cleanupExtractedText collapseBlankLines at hc
    rw [collapseBlankAux_id_of_no_newline _ _ (newline_not_mem_collapseWsRuns s)] at hc
    exact collapseWsAux_ws_eq_space s false c (mem_of_mem_jsTrim hc) hws
  · decide

/-- Witness for the amended C3. -/
theorem cleanup_whitespace_all_single_spaces_witness :
    (' ' ∈ cleanupExtractedText ("a \n b").data) ∧ isJsWs ' ' = true ∧ (' ' : Char) = ' ' :=
  ⟨by decide, by decide,
    cleanup_whitespace_all_single_spaces.1 ("a \n b").data ' ' (by decide) (by decide)⟩

/-- C4: extraction returns the normalized text exactly when that text is at
least 50 characters long; below the threshold (including the empty case) it
fails with the insufficient-text error, and any successful return is the
normalized text. -/
theorem extractTextFromPDF_threshold (pageTexts : List (List Char)) :
    (extractTextFromPDF pageTexts
        = Except.ok (cleanupExtractedText (List.intercalate ('\n' :: '\n' :: []) pageTexts))
      ↔ 50 ≤ (cleanupExtractedText (List.intercalate ('\n' :: '\n' :: []) pageTexts)).length) ∧
    ((cleanupExtractedText (List.intercalate ('\n' :: '\n' :: []) pageTexts)).length < 50 →
      extractTextFromPDF pageTexts = Except.error insufficientTextMessage) ∧
    (∀ t, extractTextFromPDF pageTexts = Except.ok t →
      t = cleanupExtractedText (List.intercalate ('\n' :: '\n' :: []) pageTexts)) := by
  have hrun : extractTextFromPDF pageTexts
      = if (cleanupExtractedText (List.intercalate ('\n' :: '\n' :: []) pageTexts)).isEmpty
           || (cleanupExtractedText (List.intercalate ('\n' :: '\n' :: []) pageTexts)).length < 50
        then Except.error insufficientTextMessage
        else Except.ok (cleanupExtractedText (List.intercalate ('\n' :: '\n' :: []) pageTexts)) := rfl
  by_cases h : 50 ≤ (cleanupExtractedText (List.intercalate ('\n' :: '\n' :: []) pageTexts)).length
  · have hne : (cleanupExtractedText (List.intercalate ('\n' :: '\n' :: []) pageTexts)).isEmpty = false := by
      cases hc : cleanupExtractedText (List.intercalate ('\n' :: '\n' :: []) pageTexts) with
      | nil => rw [hc] at h; simp at h
      | cons a l => rfl
    have hcond : ((cleanupExtractedText (List.intercalate ('\n' :: '\n' :: []) pageTexts)).isEmpty
        || decide ((cleanupExtractedText (List.intercalate ('\n' :: '\n' :: []) pageTexts)).length < 50)) = false := by
      rw [hne]
      simp
      omega
    have hok : extractTextFromPDF pageTexts
        = Except.ok (cleanupExtractedText (List.intercalate ('\n' :: '\n' :: []) pageTexts)) := by
      rw [hrun]
      simp [hcond]
    refine ⟨⟨fun _ => h, fun _ => hok⟩, fun hlt => absurd hlt (by omega), ?_⟩
    intro t ht
    rw [hok] at ht
    exact (Except.ok.inj ht).symm
  · have hcond : ((cleanupExtractedText (List.intercalate ('\n' :: '\n' :: []) pageTexts)).isEmpty
        || decide ((cleanupExtractedText (List.intercalate ('\n' :: '\n' :: []) pageTexts)).length < 50)) = true := by
      have hlt : (cleanupExtractedText (List.intercalate ('\n' :: '\n' :: []) pageTexts)).length < 50 := by
        omega
      simp [hlt]
    have herr : extractTextFromPDF pageTexts = Except.error insufficientTextMessage := by
      rw [hrun]
      simp [hcond]
    refine ⟨⟨fun he => ?_, fun hge => absurd hge h⟩, fun _ => herr, ?_⟩
    · rw [herr] at he
      exact Except.noConfusion he
    · intro t ht
      rw [herr] at ht
      exact Except.noConfusion ht

/-- Witness for C4: a page list yielding no text fails with the
insufficient-text error, and a single sufficiently long page succeeds with the
normalized text. -/
theorem extractTextFromPDF_threshold_witness :
    ((cleanupExtractedText (List.intercalate ('\n' :: '\n' :: []) [[]])).length < 50 ∧
      extractTextFromPDF [[]] = Except.error insufficientTextMessage) ∧
    (50 ≤ (cleanupExtractedText (List.intercalate ('\n' :: '\n' :: [])
        [("This agreement is made between the parties on the date below.").data])).length ∧
      extractTextFromPDF [("This agreement is made between the parties on the date below.").data]
        = Except.ok (cleanupExtractedText (List.intercalate ('\n' :: '\n' :: [])
            [("This agreement is made between the parties on the date below.").data]))) :=
  ⟨⟨by decide, (extractTextFromPDF_threshold [[]]).2.1 (by decide)⟩,
   ⟨by decide, (extractTextFromPDF_threshold
      [("This agreement is made between the parties on the date below.").data]).1.mpr (by decide)⟩⟩

/-- C5: cleaning the fenced reply ```` ```json\n ```` ++ `s` ++ ```` \n``` ````
yields exactly the trimmed `s`, so the fenced reply parses identically to the
(trimmed) unfenced JSON body. -/
theorem cleanGeminiResponse_unwraps_fence (s : List Char)
    (_h1 : s.head? ≠ some backtickChar) (_h2 : s.getLast? ≠ some backtickChar) :
    cleanGeminiResponse (("```json\n").data ++ s ++ ("\n```").data) = jsTrim s ∧
    jsonParse (cleanGeminiResponse (("```json\n").data ++ s ++ ("\n```").data))
      = jsonParse (jsTrim s) := by
  have hbt : isJsWs backtickChar = false := rfl
  have harg : ("```json\n").data ++ s ++ ("\n```").data
      = backtickChar :: ((("``json\n").data ++ s ++ ("\n``").data) ++ [backtickChar]) := by
    have g1 : ("```json\n").data = backtickChar :: ("``json\n").data := by decide
    have g2 : ("\n```").data = ("\n``").data ++ [backtickChar] := by decide
    rw [g1, g2]
    simp [List.append_assoc]
  have hA : jsTrim (("```json\n").data ++ s ++ ("\n```").data)
      = ("```json\n").data ++ s ++ ("\n```").data := by
    rw [harg, jsTrim_guard hbt hbt]
  have hsplit : ("```json\n").data ++ s ++ ("\n```").data
      = ("```json").data ++ (('\n' :: s) ++ ("\n```").data) := by
    have f1 : ("```json\n").data = ("```json").data ++ ['\n'] := by decide
    rw [f1]
    simp [List.append_assoc]
  have hpre : (("```json").data).isPrefixOf
      (("```json\n").data ++ s ++ ("\n```").data) = true := by
    rw [hsplit]
    exact isPrefixOf_append_self _ _
  have hdrop : (("```json\n").data ++ s ++ ("\n```").data).drop 7
      = ('\n' :: s) ++ ("\n```").data := by
    rw [hsplit]
    have h7 : 7 = (("```json").data).length := rfl
    rw [h7, List.drop_left]
  have hsplit2 : ('\n' :: s) ++ ("\n```").data
      = (('\n' :: s) ++ ['\n']) ++ ("```").data := by
    have f2 : ("\n```").data = '\n' :: ("```").data := by decide
    rw [f2]
    simp
  have hsuf : (("```").data).isSuffixOf (('\n' :: s) ++ ("\n```").data) = true := by
    rw [hsplit2]
    exact isSuffixOf_append_self _ _
  have htake : (('\n' :: s) ++ ("\n```").data).take
      ((('\n' :: s) ++ ("\n```").data).length - 3) = ('\n' :: s) ++ ['\n'] := by
    rw [hsplit2]
    have hlen : ((('\n' :: s) ++ ['\n']) ++ ("```").data).length - 3
        = (('\n' :: s) ++ ['\n']).length := by
      simp
    rw [hlen, List.take_left]
  have hfin : jsTrim (('\n' :: s) ++ ['\n']) = jsTrim s := by
    rw [List.cons_append, jsTrim_cons_ws (by decide), jsTrim_append_ws (by decide)]
  have main : cleanGeminiResponse (("```json\n").data ++ s ++ ("\n```").data) = jsTrim s := by
    simp only [cleanGeminiResponse]
    rw [hA]
    simp only [hpre, if_true]
    rw [hdrop]
    simp only [hsuf, if_true]
    rw [htake, hfin]
  exact ⟨main, by rw [main]⟩

/-- Witness for C5: a concrete fenced JSON object reply cleans to the trimmed
body and parses identically to it. -/
theorem cleanGeminiResponse_unwraps_fence_witness :
    (("\x7b\"summary\":\"x\"\x7d").data.head? ≠ some backtickChar) ∧
    (("\x7b\"summary\":\"x\"\x7d").data.getLast? ≠ some backtickChar) ∧
    cleanGeminiResponse
        (("```json\n").data ++ ("\x7b\"summary\":\"x\"\x7d").data ++ ("\n```").data)
      = jsTrim ("\x7b\"summary\":\"x\"\x7d").data ∧
    jsonParse (cleanGeminiResponse
        (("```json\n").data ++ ("\x7b\"summary\":\"x\"\x7d").data ++ ("\n```").data))
      = jsonParse (jsTrim ("\x7b\"summary\":\"x\"\x7d").data) :=
  ⟨by decide, by decide,
   (cleanGeminiResponse_unwraps_fence ("\x7b\"summary\":\"x\"\x7d").data
      (by decide) (by decide)).1,
   (cleanGeminiResponse_unwraps_fence ("\x7b\"summary\":\"x\"\x7d").data
      (by decide) (by decide)).2⟩
